import Mathlib

/-!
Shallow embedding of the `arena` repository (src/cffi/c_bump.c and
src/cffi/c_gen.c) and proofs about its specified behaviour.

Modelling conventions:
* C `int32_t` values are modelled as `Int`.  On every state reachable by
  the exported operations all intermediate arithmetic of `bump_alloc`
  stays strictly inside the int32 range (the code subtracts before it
  compares precisely to avoid overflow), so exact integer arithmetic is
  the faithful model there; the reachability invariant `ArenaInv` is proved
  below.
* The backing buffer is a total function `Int → Nat` giving the byte
  stored at each offset, wrapped in `Option`: `none` models a NULL
  `base`/`data` pointer.  `calloc` zero-fills, hence `fun _ => 0`.
* `free` is an external effect: destroy/finalize return a `Bool`
  recording whether a real `free` was performed on this call, paired
  with the successor state.
* C `%` is truncated division, modelled by `Int.tmod`.
* `double` values cross this code only as raw 8-byte patterns moved by
  `memcpy`, so they are modelled by their 64-bit representation as a
  `Nat`; bit-pattern identity is value identity for every non-NaN
  double.
-/

/-- The `BumpArena` struct of c_bump.c: `base` (NULL ⇔ `none`),
allocation cursor `offset` and fixed `capacity`. -/
structure BumpArena where
  base : Option (Int → Nat)
  offset : Int
  capacity : Int

/-- `bump_create`: positive capacity gets a zero-filled buffer
(`calloc`), otherwise no buffer; `capacity` is stored unvalidated and
`offset` starts at 0.  (The `abort()` on `calloc` failure ends the
process and produces no state, so it does not appear in the model.) -/
def bump_create (capacity : Int) : BumpArena :=
  if 0 < capacity then
    { base := some (fun _ => 0), offset := 0, capacity := capacity }
  else
    { base := none, offset := 0, capacity := capacity }

/-- The padding computed by `bump_alloc`:
`remainder = offset % align; padding = remainder == 0 ? 0 : align - remainder`
(C `%` is truncated, hence `Int.tmod`). -/
def padFor (offset align : Int) : Int :=
  if Int.tmod offset align = 0 then 0 else align - Int.tmod offset align

/-- `bump_alloc`: returns `(-1, unchanged)` on failure, otherwise the
aligned start offset and the advanced state.  The C locals
`remainder`/`padding`/`aligned` are inlined through `padFor`. -/
def bump_alloc (a : BumpArena) (size align : Int) : Int × BumpArena :=
  if size ≤ 0 ∨ align ≤ 0 then (-1, a)
  else if padFor a.offset align > a.capacity - a.offset then (-1, a)
  else if size > a.capacity - (a.offset + padFor a.offset align) then (-1, a)
  else (a.offset + padFor a.offset align,
        { a with offset := a.offset + padFor a.offset align + size })

/-- `bump_reset`: `a->offset = 0`. -/
def bump_reset (a : BumpArena) : BumpArena :=
  { a with offset := 0 }

/-- `bump_capacity`. -/
def bump_capacity (a : BumpArena) : Int := a.capacity

/-- `bump_used`. -/
def bump_used (a : BumpArena) : Int := a.offset

/-- `bump_destroy`: frees the buffer iff present, then NULLs the
pointer.  The `Bool` records whether a `free` actually ran. -/
def bump_destroy (a : BumpArena) : Bool × BumpArena :=
  match a.base with
  | some _ => (true, { a with base := none })
  | none => (false, a)

/-- `bump_finalize`: the finalizer callback registered with the host;
its body is byte-for-byte the same release logic as `bump_destroy`. -/
def bump_finalize (a : BumpArena) : Bool × BumpArena :=
  match a.base with
  | some _ => (true, { a with base := none })
  | none => (false, a)

/-- The state invariant of a reachable arena: the cursor is between 0
and the usable capacity (`max capacity 0`, since a non-positive
`capacity` means no usable space but is stored as given). -/
def ArenaInv (a : BumpArena) : Prop :=
  0 ≤ a.offset ∧ a.offset ≤ max a.capacity 0

instance (a : BumpArena) : Decidable (ArenaInv a) := by
  unfold ArenaInv; infer_instance

/-- Arena states reachable from `create` by `allocate`/`reset`. -/
inductive ArenaReachable : BumpArena → Prop
  | create (c : Int) : ArenaReachable (bump_create c)
  | alloc (a : BumpArena) (s al : Int) :
      ArenaReachable a → ArenaReachable (bump_alloc a s al).2
  | reset (a : BumpArena) :
      ArenaReachable a → ArenaReachable (bump_reset a)

/-! ### Raw byte accessors (memcpy-based, little-endian byte order) -/

/-- One byte store: `base[i] = b`. -/
def storeByte (m : Int → Nat) (i : Int) (b : Nat) : Int → Nat :=
  fun j => if j = i then b else m j

/-- `memcpy(base + off, &n, k)` for a `k`-byte unsigned value `n`,
least-significant byte first. -/
def storeLE : (Int → Nat) → Int → Nat → Nat → Int → Nat
  | m, _, _, 0 => m
  | m, off, n, k + 1 => storeLE (storeByte m off (n % 256)) (off + 1) (n / 256) k

/-- `memcpy(&n, base + off, k)`: reassemble the `k`-byte unsigned value
stored at `off`, least-significant byte first. -/
def readLE : (Int → Nat) → Int → Nat → Nat
  | _, _, 0 => 0
  | m, off, k + 1 => m off + 256 * readLE m (off + 1) k

/-- `bump_write_i32`: memcpy the 4-byte two's-complement
representation of `val` to `base + offset`. -/
def bump_write_i32 (a : BumpArena) (offset val : Int) : BumpArena :=
  { a with base := a.base.map (fun m => storeLE m offset (val % 4294967296).toNat 4) }

/-- `bump_read_i32`: memcpy 4 bytes from `base + offset` and interpret
them as a two's-complement int32.  `none` models a NULL base. -/
def bump_read_i32 (a : BumpArena) (offset : Int) : Option Int :=
  a.base.map (fun m =>
    if readLE m offset 4 < 2147483648 then (readLE m offset 4 : Int)
    else (readLE m offset 4 : Int) - 4294967296)

/-- `bump_write_f64`: memcpy the 8-byte representation of the double
(given by its 64-bit pattern `val`) to `base + offset`. -/
def bump_write_f64 (a : BumpArena) (offset : Int) (val : Nat) : BumpArena :=
  { a with base := a.base.map (fun m => storeLE m offset (val % 18446744073709551616) 8) }

/-- `bump_read_f64`: memcpy 8 bytes from `base + offset`; the result is
the double with that 64-bit pattern. -/
def bump_read_f64 (a : BumpArena) (offset : Int) : Option Nat :=
  a.base.map (fun m => readLE m offset 8)

/-- `bump_write_byte`: `base[offset] = (char)(unsigned char)val`, i.e.
the low 8 bits of `val`. -/
def bump_write_byte (a : BumpArena) (offset val : Int) : BumpArena :=
  { a with base := a.base.map (fun m => storeByte m offset (val % 256).toNat) }

/-- `bump_read_byte`: `(int32_t)(unsigned char)base[offset]`. -/
def bump_read_byte (a : BumpArena) (offset : Int) : Option Int :=
  a.base.map (fun m => (m offset : Int))

/-! ### The GenArray (FixedArray) of c_gen.c -/

/-- The `GenArray` struct: `data` (NULL ⇔ `none`) and fixed `length`. -/
structure GenArray where
  data : Option (Int → Int)
  length : Int

/-- `gen_create`: positive length gets a zero-filled int32 buffer
(`calloc`), otherwise no buffer; `length` stored as given. -/
def gen_create (length : Int) : GenArray :=
  if 0 < length then { data := some (fun _ => 0), length := length }
  else { data := none, length := length }

/-- `gen_destroy`: frees `data` iff present, then NULLs it; the `Bool`
records whether a `free` actually ran. -/
def gen_destroy (g : GenArray) : Bool × GenArray :=
  match g.data with
  | some _ => (true, { g with data := none })
  | none => (false, g)

/-- `gen_finalize`: the host-invoked finalizer; same release logic as
`gen_destroy`. -/
def gen_finalize (g : GenArray) : Bool × GenArray :=
  match g.data with
  | some _ => (true, { g with data := none })
  | none => (false, g)

/-- `gen_get`: `g->data[index]`; `none` models a NULL data pointer. -/
def gen_get (g : GenArray) (index : Int) : Option Int :=
  g.data.map (fun d => d index)

/-- `gen_set`: `g->data[index] = val`. -/
def gen_set (g : GenArray) (index val : Int) : GenArray :=
  { g with data := g.data.map (fun d => fun j => if j = index then val else d j) }

/-- `gen_length`. -/
def gen_length (g : GenArray) : Int := g.length

/-- Modelled from the spec: the manually-managed FixedArray variant
(spec §4.2, §7) is not under src/ — only the finalizer-backed
`c_gen.c` is.  Per the spec, when `length > 0` and the underlying
allocation fails, `create` returns a null handle instead of aborting;
`allocOk` models whether that allocation succeeds. -/
def gen_create_manual (length : Int) (allocOk : Bool) : Option GenArray :=
  if 0 < length then
    if allocOk then some { data := some (fun _ => 0), length := length }
    else none
  else some { data := none, length := length }

/-- Modelled from the spec: `is_null` of the manually-managed variant —
true exactly on the null handle returned by a failed `create`. -/
def gen_is_null (h : Option GenArray) : Bool := h.isNone

/-! ### Allocation traces -/

/-- One successful allocation: returned start offset, requested size
and alignment. -/
structure AllocRec where
  start : Int
  size : Int
  align : Int
deriving DecidableEq

/-- Run a list of `(size, align)` requests; `some` exactly when every
`bump_alloc` call succeeds, collecting the returned records. -/
def runAllocs : BumpArena → List (Int × Int) → Option (List AllocRec × BumpArena)
  | a, [] => some ([], a)
  | a, (s, al) :: rest =>
    if (bump_alloc a s al).1 = -1 then none
    else
      match runAllocs (bump_alloc a s al).2 rest with
      | none => none
      | some (recs, a') => some (⟨(bump_alloc a s al).1, s, al⟩ :: recs, a')

/-- An arena of capacity 10 with cursor at 8, as in the spec's
example (capacity 10, `used() == 8`). -/
def arenaTenEight : BumpArena := (bump_alloc (bump_create 10) 8 1).2

/-- An arena of capacity 10 with 5 bytes used, for the reset example. -/
def arenaFiveOfTen : BumpArena := (bump_alloc (bump_create 10) 5 1).2

/-! ### Padding arithmetic -/

theorem padFor_eq_emod (o al : Int) (ho : 0 ≤ o) (hal : 0 < al) :
    padFor o al = if o % al = 0 then 0 else al - o % al := by
  unfold padFor
  rw [Int.tmod_eq_emod ho hal.le]

theorem padFor_nonneg (o al : Int) (ho : 0 ≤ o) (hal : 0 < al) :
    0 ≤ padFor o al := by
  rw [padFor_eq_emod o al ho hal]
  have h1 : 0 ≤ o % al := Int.emod_nonneg o hal.ne'
  have h2 : o % al < al := Int.emod_lt_of_pos o hal
  split <;> omega

theorem padFor_lt (o al : Int) (ho : 0 ≤ o) (hal : 0 < al) :
    padFor o al < al := by
  rw [padFor_eq_emod o al ho hal]
  have h1 : 0 ≤ o % al := Int.emod_nonneg o hal.ne'
  split <;> omega

theorem padFor_dvd (o al : Int) (ho : 0 ≤ o) (hal : 0 < al) :
    al ∣ (o + padFor o al) := by
  rw [padFor_eq_emod o al ho hal]
  have h1 := Int.ediv_add_emod o al
  by_cases h : o % al = 0
  · rw [if_pos h]
    exact ⟨o / al, by omega⟩
  · rw [if_neg h]
    exact ⟨o / al + 1, by rw [Int.mul_add, Int.mul_one]; omega⟩

theorem padFor_min (o al m : Int) (ho : 0 ≤ o) (hal : 0 < al)
    (hdvd : al ∣ m) (hm : o ≤ m) : o + padFor o al ≤ m := by
  obtain ⟨k, rfl⟩ := hdvd
  rw [padFor_eq_emod o al ho hal]
  have h1 := Int.ediv_add_emod o al
  by_cases h : o % al = 0
  · rw [if_pos h]; omega
  · rw [if_neg h]
    have h2 : 0 ≤ o % al := Int.emod_nonneg o hal.ne'
    have h3 : o % al < al := Int.emod_lt_of_pos o hal
    have hq : al * (o / al) < al * k := by omega
    have hk : o / al < k := lt_of_mul_lt_mul_left hq hal.le
    have h4 : al * (o / al + 1) ≤ al * k :=
      mul_le_mul_of_nonneg_left (by omega) hal.le
    have h5 : al * (o / al + 1) = al * (o / al) + al := by ring
    omega

/-! ### Behaviour of `bump_alloc` on invariant states -/

theorem bump_alloc_fail_frame (a : BumpArena) (s al : Int)
    (hInv : ArenaInv a) (h : (bump_alloc a s al).1 = -1) :
    (bump_alloc a s al).2 = a := by
  obtain ⟨ho, _⟩ := hInv
  unfold bump_alloc at h ⊢
  split_ifs at h ⊢ with h1 h2 h3
  · rfl
  · rfl
  · rfl
  · exfalso
    have hal : 0 < al := by omega
    have hp := padFor_nonneg a.offset al ho hal
    simp only at h
    omega

theorem bump_alloc_success (a : BumpArena) (s al : Int)
    (h : (bump_alloc a s al).1 ≠ -1) :
    0 < s ∧ 0 < al ∧
    (bump_alloc a s al).1 = a.offset + padFor a.offset al ∧
    (bump_alloc a s al).2.offset = a.offset + padFor a.offset al + s ∧
    (bump_alloc a s al).2.offset ≤ a.capacity ∧
    (bump_alloc a s al).2.capacity = a.capacity ∧
    (bump_alloc a s al).2.base = a.base := by
  unfold bump_alloc at h ⊢
  split_ifs at h ⊢ with h1 h2 h3
  · exact absurd rfl h
  · exact absurd rfl h
  · exact absurd rfl h
  · refine ⟨by omega, by omega, rfl, rfl, by simp only; omega, rfl, rfl⟩

theorem bump_alloc_preserves (a : BumpArena) (s al : Int)
    (hInv : ArenaInv a) : ArenaInv (bump_alloc a s al).2 := by
  by_cases h : (bump_alloc a s al).1 = -1
  · rw [bump_alloc_fail_frame a s al hInv h]; exact hInv
  · obtain ⟨hs, hal, _, hoff, hle, hcap, _⟩ := bump_alloc_success a s al h
    obtain ⟨ho, _⟩ := hInv
    have hp := padFor_nonneg a.offset al ho hal
    unfold ArenaInv
    constructor
    · omega
    · rw [hcap]; omega

theorem bump_reset_preserves (a : BumpArena) :
    ArenaInv (bump_reset a) := by
  unfold ArenaInv bump_reset
  simp

theorem bump_create_inv (c : Int) : ArenaInv (bump_create c) := by
  unfold ArenaInv bump_create
  split_ifs <;> simp

/-! ### Byte-level round trips -/

theorem storeLE_lower (k : Nat) :
    ∀ (m : Int → Nat) (off : Int) (n : Nat) (j : Int), j < off →
      storeLE m off n k j = m j := by
  induction k with
  | zero => intro m off n j _; rfl
  | succ k ih =>
    intro m off n j hj
    show storeLE (storeByte m off (n % 256)) (off + 1) (n / 256) k j = m j
    rw [ih _ _ _ _ (by omega)]
    unfold storeByte
    rw [if_neg (by omega)]

theorem readLE_storeLE (k : Nat) :
    ∀ (m : Int → Nat) (off : Int) (n : Nat), n < 256 ^ k →
      readLE (storeLE m off n k) off k = n := by
  induction k with
  | zero => intro m off n hn; interval_cases n; rfl
  | succ k ih =>
    intro m off n hn
    show storeLE (storeByte m off (n % 256)) (off + 1) (n / 256) k off +
        256 * readLE (storeLE (storeByte m off (n % 256)) (off + 1) (n / 256) k) (off + 1) k = n
    rw [storeLE_lower k _ _ _ _ (by omega)]
    have hdiv : n / 256 < 256 ^ k := by
      rw [Nat.div_lt_iff_lt_mul (by norm_num)]
      calc n < 256 ^ (k + 1) := hn
        _ = 256 ^ k * 256 := by rw [pow_succ]
    rw [ih _ _ _ hdiv]
    unfold storeByte
    rw [if_pos rfl]
    omega

/-! ### Allocation trace lemma -/

theorem runAllocs_chain (reqs : List (Int × Int)) :
    ∀ (a : BumpArena) (recs : List AllocRec) (a' : BumpArena),
      ArenaInv a → runAllocs a reqs = some (recs, a') →
      a'.capacity = a.capacity ∧ a'.base = a.base ∧ ArenaInv a' ∧
      a.offset ≤ a'.offset ∧
      (∀ r ∈ recs, a.offset ≤ r.start ∧ 0 < r.size ∧ 0 < r.align ∧
        r.start + r.size ≤ a'.offset ∧ r.start % r.align = 0) ∧
      List.Pairwise (fun p q : AllocRec => p.start + p.size ≤ q.start) recs := by
  induction reqs with
  | nil =>
    intro a recs a' hInv h
    unfold runAllocs at h
    simp only [Option.some.injEq, Prod.mk.injEq] at h
    obtain ⟨h1, h2⟩ := h
    subst h1; subst h2
    exact ⟨rfl, rfl, hInv, le_refl _, by simp, by simp⟩
  | cons hd tl ih =>
    intro a recs a' hInv h
    obtain ⟨s, al⟩ := hd
    unfold runAllocs at h
    split_ifs at h with hfail
    have hsucc := bump_alloc_success a s al hfail
    obtain ⟨hs, hal, hfst, hoff1, hle1, hcap1, hbase1⟩ := hsucc
    have hInv1 : ArenaInv (bump_alloc a s al).2 :=
      bump_alloc_preserves a s al hInv
    rcases hrec : runAllocs (bump_alloc a s al).2 tl with _ | ⟨recs2, a2⟩
    · rw [hrec] at h; cases h
    · rw [hrec] at h
      simp only [Option.some.injEq, Prod.mk.injEq] at h
      obtain ⟨h1, h2⟩ := h
      subst h1; subst h2
      obtain ⟨hcap, hbase, hInv', hmono, hall, hpw⟩ :=
        ih (bump_alloc a s al).2 recs2 a2 hInv1 hrec
      obtain ⟨ho, _⟩ := hInv
      have hp := padFor_nonneg a.offset al ho hal
      have hdvd := padFor_dvd a.offset al ho hal
      refine ⟨by rw [hcap, hcap1], by rw [hbase, hbase1], hInv',
        by omega, ?_, ?_⟩
      · intro r hr
        rw [List.mem_cons] at hr
        rcases hr with hr | hr
        · subst hr
          refine ⟨by simp only [hfst]; omega, hs, hal, ?_, ?_⟩
          · simp only [hfst]; omega
          · simp only [hfst]
            exact Int.emod_eq_zero_of_dvd hdvd
        · have := hall r hr
          refine ⟨by omega, this.2.1, this.2.2.1, this.2.2.2.1,
            this.2.2.2.2⟩
      · refine List.Pairwise.cons ?_ hpw
        intro q hq
        have := hall q hq
        simp only [hfst]
        omega

/-! ## Claim theorems -/

/-- C1: for every (reachable-invariant) arena and all int32 `size`,
`align`, `bump_alloc` returns -1 exactly when `size ≤ 0`, `align ≤ 0`,
or the padded request does not fit in the remaining capacity;
otherwise it returns the smallest offset ≥ the cursor that is a
multiple of `align` and advances the cursor to that offset plus
`size`. -/
theorem c1_alloc_contract (a : BumpArena) (size align : Int)
    (hInv : ArenaInv a) :
    ((bump_alloc a size align).1 = -1 ↔
      size ≤ 0 ∨ align ≤ 0 ∨
        a.capacity - a.offset < padFor a.offset align + size) ∧
    ((bump_alloc a size align).1 ≠ -1 →
      a.offset ≤ (bump_alloc a size align).1 ∧
      align ∣ (bump_alloc a size align).1 ∧
      (∀ m : Int, align ∣ m → a.offset ≤ m →
        (bump_alloc a size align).1 ≤ m) ∧
      (bump_alloc a size align).2.offset =
        (bump_alloc a size align).1 + size) := by
  obtain ⟨ho, hco⟩ := hInv
  constructor
  · constructor
    · intro h
      unfold bump_alloc at h
      split_ifs at h with h1 h2 h3
      · omega
      · omega
      · omega
      · exfalso
        have hal : 0 < align := by omega
        have hp := padFor_nonneg a.offset align ho hal
        simp only at h
        omega
    · intro hcond
      by_contra hne
      obtain ⟨hs, hal, hfst, hoff, hle, _, _⟩ :=
        bump_alloc_success a size align hne
      omega
  · intro hne
    obtain ⟨hs, hal, hfst, hoff, hle, _, _⟩ :=
      bump_alloc_success a size align hne
    have hp := padFor_nonneg a.offset align ho hal
    refine ⟨by omega, ?_, ?_, by omega⟩
    · rw [hfst]; exact padFor_dvd a.offset align ho hal
    · intro m hdvd hm
      rw [hfst]; exact padFor_min a.offset align m ho hal hdvd hm

/-- Witness for C1: on a capacity-10 arena with 8 bytes used,
`allocate(4, 1)` fails, `allocate(2, 1)` succeeds returning 8 and
exactly fills the remaining capacity. -/
theorem c1_alloc_contract_witness :
    ArenaInv arenaTenEight ∧ bump_used arenaTenEight = 8 ∧
    bump_capacity arenaTenEight = 10 ∧
    (bump_alloc arenaTenEight 4 1).1 = -1 ∧
    (bump_alloc arenaTenEight 2 1).1 = 8 ∧
    (bump_alloc arenaTenEight 2 1).2.offset = 10 :=
  ⟨by decide, by decide, by decide,
   (c1_alloc_contract arenaTenEight 4 1 (by decide)).1.mpr (by decide),
   by decide, by decide⟩

/-- C3 counterexample: the claim demands `0 ≤ offset ≤ capacity` even
for a negative stored capacity, but `create(-1)` has `offset = 0 >
-1 = capacity`. -/
theorem c3_counterexample :
    ¬ (0 ≤ (bump_create (-1)).offset ∧
       (bump_create (-1)).offset ≤ (bump_create (-1)).capacity) := by
  decide

/-- C3 (amended): on every arena reachable by create/allocate/reset,
`0 ≤ offset ≤ max capacity 0` — i.e. `0 ≤ offset` always, and
`offset ≤ capacity` whenever `capacity ≥ 0`. -/
theorem c3_cursor_invariant (a : BumpArena) (h : ArenaReachable a) :
    0 ≤ a.offset ∧ a.offset ≤ max a.capacity 0 := by
  induction h with
  | create c => exact bump_create_inv c
  | alloc a s al _ ih => exact bump_alloc_preserves a s al ih
  | reset a _ _ => exact bump_reset_preserves a

/-- Witness for C3 (amended) on a concrete reachable arena. -/
theorem c3_cursor_invariant_witness :
    0 ≤ (bump_alloc (bump_create 7) 3 2).2.offset ∧
    (bump_alloc (bump_create 7) 3 2).2.offset ≤
      max (bump_alloc (bump_create 7) 3 2).2.capacity 0 :=
  c3_cursor_invariant (bump_alloc (bump_create 7) 3 2).2
    (ArenaReachable.alloc (bump_create 7) 3 2 (ArenaReachable.create 7))

/-- C7: for capacity ≤ 0, `create` yields no buffer, the capacity
stored as given, offset 0, and every later `allocate` fails with -1. -/
theorem c7_empty_arena (cap : Int) (h : cap ≤ 0) :
    (bump_create cap).base = none ∧
    (bump_create cap).capacity = cap ∧
    (bump_create cap).offset = 0 ∧
    ∀ s al : Int, (bump_alloc (bump_create cap) s al).1 = -1 := by
  have hc : bump_create cap =
      { base := none, offset := 0, capacity := cap } := by
    unfold bump_create
    rw [if_neg (by omega)]
  refine ⟨by rw [hc], by rw [hc], by rw [hc], ?_⟩
  intro s al
  rw [hc]
  unfold bump_alloc
  dsimp only
  have hpad : 0 ≤ padFor 0 al ∨ al ≤ 0 := by
    by_cases hal : 0 < al
    · exact Or.inl (padFor_nonneg 0 al le_rfl hal)
    · exact Or.inr (by omega)
  have hpad0 : padFor 0 al = 0 ∨ al ≤ 0 := by
    by_cases hal : 0 < al
    · refine Or.inl ?_
      unfold padFor
      rw [Int.zero_tmod]
      simp
    · exact Or.inr (by omega)
  split_ifs with h1 h2 h3
  · rfl
  · rfl
  · rfl
  · exfalso
    omega

/-- Witness for C7 at capacity 0 and a sample request. -/
theorem c7_empty_arena_witness :
    (bump_create 0).base = none ∧
    (bump_create 0).capacity = 0 ∧
    (bump_create 0).offset = 0 ∧
    ∀ s al : Int, (bump_alloc (bump_create 0) s al).1 = -1 :=
  c7_empty_arena 0 (by decide)

/-- C10: whenever `bump_alloc` fails (returns -1) on an
invariant-satisfying arena, the entire state — offset, capacity,
buffer pointer and contents — is unchanged. -/
theorem c10_fail_atomic (a : BumpArena) (size align : Int)
    (hInv : ArenaInv a) (h : (bump_alloc a size align).1 = -1) :
    (bump_alloc a size align).2 = a :=
  bump_alloc_fail_frame a size align hInv h

/-- Witness for C10: an oversized request on a fresh capacity-4 arena
fails and leaves the arena exactly as created. -/
theorem c10_fail_atomic_witness :
    ArenaInv (bump_create 4) ∧
    (bump_alloc (bump_create 4) 10 1).1 = -1 ∧
    (bump_alloc (bump_create 4) 10 1).2 = bump_create 4 :=
  ⟨by decide, by decide,
   c10_fail_atomic (bump_create 4) 10 1 (by decide) (by decide)⟩

/-- C2: any all-successful sequence of allocations returns pairwise
disjoint intervals, each within `[0, capacity)` and each starting at a
multiple of its requested alignment (power of two or not). -/
theorem c2_disjoint_aligned (a : BumpArena) (reqs : List (Int × Int))
    (recs : List AllocRec) (a' : BumpArena) (hInv : ArenaInv a)
    (h : runAllocs a reqs = some (recs, a')) :
    (∀ r ∈ recs, 0 ≤ r.start ∧ r.start + r.size ≤ a.capacity ∧
      r.start % r.align = 0) ∧
    List.Pairwise
      (fun p q : AllocRec =>
        p.start + p.size ≤ q.start ∨ q.start + q.size ≤ p.start)
      recs := by
  obtain ⟨hcap, _, hInv', _, hall, hpw⟩ :=
    runAllocs_chain reqs a recs a' hInv h
  obtain ⟨ho, _⟩ := hInv
  obtain ⟨ho', hcb⟩ := hInv'
  constructor
  · intro r hr
    obtain ⟨h1, h2, _, h4, h5⟩ := hall r hr
    exact ⟨by omega, by omega, h5⟩
  · exact List.Pairwise.imp (fun hle => Or.inl hle) hpw

/-- Witness for C2: three successful allocations on a capacity-10
arena, one with non-power-of-two alignment 3, give disjoint aligned
intervals inside `[0, 10)`. -/
theorem c2_disjoint_aligned_witness :
    (∀ r ∈ ([⟨0, 1, 1⟩, ⟨3, 2, 3⟩, ⟨6, 4, 2⟩] : List AllocRec),
      0 ≤ r.start ∧ r.start + r.size ≤ (bump_create 10).capacity ∧
      r.start % r.align = 0) ∧
    List.Pairwise
      (fun p q : AllocRec =>
        p.start + p.size ≤ q.start ∨ q.start + q.size ≤ p.start)
      [⟨0, 1, 1⟩, ⟨3, 2, 3⟩, ⟨6, 4, 2⟩] :=
  c2_disjoint_aligned (bump_create 10) [(1, 1), (2, 3), (4, 2)]
    [⟨0, 1, 1⟩, ⟨3, 2, 3⟩, ⟨6, 4, 2⟩]
    ⟨some (fun _ => 0), 10, 10⟩ (by decide) rfl

/-- C4: `reset` zeroes the cursor (`used() = 0`), leaves the buffer
pointer/contents and the capacity unchanged, and afterwards a single
allocation can reserve the full capacity starting at offset 0 — a
region containing every previously returned offset. -/
theorem c4_reset (a : BumpArena) :
    bump_used (bump_reset a) = 0 ∧
    (bump_reset a).base = a.base ∧
    (bump_reset a).capacity = a.capacity ∧
    (0 < a.capacity →
      (bump_alloc (bump_reset a) a.capacity 1).1 = 0 ∧
      (bump_alloc (bump_reset a) a.capacity 1).2.offset = a.capacity) := by
  refine ⟨rfl, rfl, rfl, ?_⟩
  intro hc
  have hpad : padFor 0 1 = 0 := by decide
  unfold bump_alloc bump_reset
  dsimp only
  rw [hpad]
  rw [if_neg (by omega), if_neg (by omega), if_neg (by omega)]
  exact ⟨by omega, by dsimp only; omega⟩

/-- Witness for C4: after using 5 of 10 bytes, reset gives `used() = 0`,
keeps buffer and capacity, and a full-capacity allocation succeeds at
offset 0. -/
theorem c4_reset_witness :
    bump_used (bump_reset arenaFiveOfTen) = 0 ∧
    (bump_reset arenaFiveOfTen).base = arenaFiveOfTen.base ∧
    (bump_reset arenaFiveOfTen).capacity = arenaFiveOfTen.capacity ∧
    (bump_alloc (bump_reset arenaFiveOfTen) arenaFiveOfTen.capacity 1).1 = 0 ∧
    (bump_alloc (bump_reset arenaFiveOfTen) arenaFiveOfTen.capacity 1).2.offset =
      arenaFiveOfTen.capacity :=
  ⟨(c4_reset arenaFiveOfTen).1, (c4_reset arenaFiveOfTen).2.1,
   (c4_reset arenaFiveOfTen).2.2.1,
   ((c4_reset arenaFiveOfTen).2.2.2 (by decide)).1,
   ((c4_reset arenaFiveOfTen).2.2.2 (by decide)).2⟩

/-- C5: destroy and the finalizer release the owned buffer only when
present, then mark it absent, in both components; any second release —
explicit or finalizer, in any order — performs no free and leaves the
state fixed (destroy ∘ destroy = destroy). -/
theorem c5_release_idempotent (a : BumpArena) (g : GenArray) :
    ((bump_destroy a).1 = a.base.isSome ∧
     (bump_destroy a).2.base = none ∧
     bump_finalize a = bump_destroy a ∧
     (bump_destroy (bump_destroy a).2).1 = false ∧
     (bump_destroy (bump_destroy a).2).2 = (bump_destroy a).2 ∧
     (bump_destroy (bump_finalize a).2).1 = false ∧
     (bump_finalize (bump_destroy a).2).1 = false ∧
     (bump_finalize (bump_finalize a).2).2 = (bump_finalize a).2) ∧
    ((gen_destroy g).1 = g.data.isSome ∧
     (gen_destroy g).2.data = none ∧
     gen_finalize g = gen_destroy g ∧
     (gen_destroy (gen_destroy g).2).1 = false ∧
     (gen_destroy (gen_destroy g).2).2 = (gen_destroy g).2 ∧
     (gen_destroy (gen_finalize g).2).1 = false ∧
     (gen_finalize (gen_destroy g).2).1 = false ∧
     (gen_finalize (gen_finalize g).2).2 = (gen_finalize g).2) := by
  obtain ⟨b, o, c⟩ := a
  obtain ⟨d, l⟩ := g
  cases b <;> cases d <;>
    simp [bump_destroy, bump_finalize, gen_destroy, gen_finalize]

/-- C6: on an arena with a live buffer and in-bounds offsets,
write-then-read at the same offset round-trips: every int32 through
`write_i32`/`read_i32`, every 8-byte double pattern through
`write_f64`/`read_f64`, and every value 0..255 through
`write_byte`/`read_byte` (unsigned byte semantics). -/
theorem c6_roundtrip (a : BumpArena) (buf : Int → Nat)
    (hbuf : a.base = some buf) :
    (∀ off v : Int, 0 ≤ off → off + 4 ≤ a.capacity →
      -2147483648 ≤ v → v < 2147483648 →
      bump_read_i32 (bump_write_i32 a off v) off = some v) ∧
    (∀ (off : Int) (pat : Nat), 0 ≤ off → off + 8 ≤ a.capacity →
      pat < 18446744073709551616 →
      bump_read_f64 (bump_write_f64 a off pat) off = some pat) ∧
    (∀ off v : Int, 0 ≤ off → off + 1 ≤ a.capacity → 0 ≤ v → v ≤ 255 →
      bump_read_byte (bump_write_byte a off v) off = some v) := by
  refine ⟨?_, ?_, ?_⟩
  · intro off v _ _ hv1 hv2
    simp only [bump_write_i32, bump_read_i32, hbuf, Option.map_some',
      Option.some.injEq]
    have hnn : (0 : Int) ≤ v % 4294967296 :=
      Int.emod_nonneg v (by norm_num)
    have hn : ((v % 4294967296).toNat : Int) = v % 4294967296 :=
      Int.toNat_of_nonneg hnn
    have hub : v % 4294967296 < 4294967296 :=
      Int.emod_lt_of_pos v (by norm_num)
    have hpow : (256 : Nat) ^ 4 = 4294967296 := by norm_num
    have hlt : (v % 4294967296).toNat < 256 ^ 4 := by
      rw [hpow]; omega
    rw [readLE_storeLE 4 buf off (v % 4294967296).toNat hlt]
    split_ifs with hsmall <;> omega
  · intro off pat _ _ hpat
    simp only [bump_write_f64, bump_read_f64, hbuf, Option.map_some',
      Option.some.injEq]
    have hpow : (256 : Nat) ^ 8 = 18446744073709551616 := by norm_num
    have hmod : pat % 18446744073709551616 = pat := Nat.mod_eq_of_lt hpat
    have hlt : pat % 18446744073709551616 < 256 ^ 8 := by rw [hpow]; omega
    rw [readLE_storeLE 8 buf off (pat % 18446744073709551616) hlt, hmod]
  · intro off v _ _ hv1 hv2
    simp only [bump_write_byte, bump_read_byte, hbuf, Option.map_some',
      Option.some.injEq, storeByte, if_pos, if_true, eq_self_iff_true]
    omega

/-- Witness for C6: a fresh capacity-16 arena round-trips the int32
-12345 at offset 0, the double -1.5 (pattern 0xBFF8000000000000) at
offset 4, and the byte 255 at offset 12. -/
theorem c6_roundtrip_witness :
    bump_read_i32 (bump_write_i32 (bump_create 16) 0 (-12345)) 0 =
      some (-12345) ∧
    bump_read_f64 (bump_write_f64 (bump_create 16) 4 13832806255468478464) 4 =
      some 13832806255468478464 ∧
    bump_read_byte (bump_write_byte (bump_create 16) 12 255) 12 = some 255 :=
  ⟨(c6_roundtrip (bump_create 16) (fun _ => 0) rfl).1 0 (-12345)
     (by decide) (by decide) (by decide) (by decide),
   (c6_roundtrip (bump_create 16) (fun _ => 0) rfl).2.1 4
     13832806255468478464 (by decide) (by decide) (by decide),
   (c6_roundtrip (bump_create 16) (fun _ => 0) rfl).2.2 12 255
     (by decide) (by decide) (by decide) (by decide)⟩

/-- C8: a FixedArray created with positive length reads 0 at every
in-range index before any set; set followed by get at the same index
returns the written value; and the length is the one given at
creation, unchanged by set (get does not mutate at all). -/
theorem c8_fixed_array (len : Int) (hlen : 0 < len) :
    (∀ i : Int, 0 ≤ i → i < len → gen_get (gen_create len) i = some 0) ∧
    (∀ (g : GenArray) (i v : Int), g.data.isSome = true →
      0 ≤ i → i < len →
      gen_get (gen_set g i v) i = some v ∧
      gen_length (gen_set g i v) = gen_length g) ∧
    gen_length (gen_create len) = len := by
  have hc : gen_create len = { data := some (fun _ => 0), length := len } := by
    unfold gen_create
    rw [if_pos hlen]
  refine ⟨?_, ?_, by rw [hc]; rfl⟩
  · intro i _ _
    rw [hc]
    rfl
  · intro g i v hd _ _
    rcases hg : g.data with _ | d
    · rw [hg] at hd; cases hd
    · constructor
      · simp [gen_get, gen_set, hg]
      · rfl

/-- Witness for C8 at the spec's example `length = 5`: indices 0 and 4
read 0 before any set, `set(2, -7)` then `get(2)` returns -7, and the
length stays 5. -/
theorem c8_fixed_array_witness :
    gen_get (gen_create 5) 0 = some 0 ∧
    gen_get (gen_create 5) 4 = some 0 ∧
    gen_get (gen_set (gen_create 5) 2 (-7)) 2 = some (-7) ∧
    gen_length (gen_set (gen_create 5) 2 (-7)) = 5 ∧
    gen_length (gen_create 5) = 5 :=
  ⟨(c8_fixed_array 5 (by decide)).1 0 (by decide) (by decide),
   (c8_fixed_array 5 (by decide)).1 4 (by decide) (by decide),
   ((c8_fixed_array 5 (by decide)).2.1 (gen_create 5) 2 (-7)
     (by decide) (by decide) (by decide)).1,
   ((c8_fixed_array 5 (by decide)).2.1 (gen_create 5) 2 (-7)
     (by decide) (by decide) (by decide)).2,
   (c8_fixed_array 5 (by decide)).2.2⟩

/-- C9 (spec-modelled): in the manually-managed variant, a failed
underlying allocation with positive length yields a null handle — not
an abort — and `is_null` reports true on it. -/
theorem c9_manual_null (len : Int) (hlen : 0 < len) :
    gen_create_manual len false = none ∧
    gen_is_null (gen_create_manual len false) = true := by
  unfold gen_create_manual gen_is_null
  rw [if_pos hlen]
  exact ⟨rfl, rfl⟩

/-- Witness for C9 at length 7. -/
theorem c9_manual_null_witness :
    gen_create_manual 7 false = none ∧
    gen_is_null (gen_create_manual 7 false) = true :=
  c9_manual_null 7 (by decide)
